import Mathlib

open Matrix

/-!
Verification development for a small 3D mesh viewer.

The program consists of three modules:
* `mesh.py`    — the `Mesh` class (vertices as a 3×V array, faces as an F×3
  array of vertex indices), edge extraction, rotation, centering, projection,
  per-face z-centroids and face normals, plus a CSV reader.
* `window.py`  — the plotting window: painter's-algorithm triangle drawing
  sorted by per-face render-order values, and normal-based shading colors.
* `mesh_renderer.py` — the interactive application: mouse-drag events are
  converted to incremental rotations.

Pure numerical code is embedded over `ℝ` (exact real arithmetic stands in for
floating point); file parsing is embedded over already-lexed numeric rows with
`Except` modelling Python's fatal exceptions (`assert`, `StopIteration`,
`numpy` shape errors).  Vertices of a mesh are a `Matrix (Fin 3) (Fin n) ℝ`
(columns are points), mirroring the 3×V layout of the source.
-/

/- ### mesh.py, `Mesh.compute_edge_indices`

The source iterates over the rows of the F×3 `faces` array and adds the three
ordered tuples `(face[0], face[1])`, `(face[0], face[2])`, `(face[1], face[2])`
to a Python `set`, returned as a list.  A Python set of tuples is a finite set
of ordered pairs, modelled here as a `Finset (ℕ × ℕ)`. -/

def compute_edge_indices (faces : List (ℕ × ℕ × ℕ)) : Finset (ℕ × ℕ) :=
  faces.foldl
    (fun s face =>
      insert (face.2.1, face.2.2) (insert (face.1, face.2.2) (insert (face.1, face.2.1) s)))
    ∅

/- ### mesh.py, `read_mesh_from_file` and `vertex_id_to_index`

The file is modelled after numeric lexing (`int(...)` / `float(...)` are I/O
mechanics): a header `numVertices, numFaces`, then vertex rows (floats, the
leading id column is dropped by the reader) and face rows (integers, 1-based
vertex ids).  Python failure modes are modelled as `Except.error`:
* missing rows → `StopIteration`;
* a face id `< 1` → the `assert` in `vertex_id_to_index`;
* ragged vertex rows → `np.array(vertices).T` fails;
* `numVertices = 0` → `vertices.shape[1]` raises `IndexError` in `Mesh.__init__`;
* empty or non-F×3 faces → the shape assert in `Mesh.compute_edge_indices`
  (or `np.array(faces)` on ragged input).
The mesh stores `np.array(vertices).T` (3×V, columns are points); `PMesh`
keeps the same data as the list of vertex rows. -/

structure MeshFile where
  numVertices : ℕ
  numFaces : ℕ
  vertexRows : List (List ℚ)
  faceRows : List (List Int)
deriving DecidableEq

structure PMesh where
  vertices : List (List ℚ)
  faces : List (List ℕ)
deriving DecidableEq

def vertex_id_to_index (vertex_id : Int) : Except String ℕ :=
  if 1 ≤ vertex_id then Except.ok (vertex_id - 1).toNat
  else Except.error "AssertionError: Vertex id should range from 1 to V"

def convert_face_row : List Int → Except String (List ℕ)
  | [] => Except.ok []
  | x :: xs => do
    let i ← vertex_id_to_index x
    let rest ← convert_face_row xs
    Except.ok (i :: rest)

def convert_face_rows : List (List Int) → Except String (List (List ℕ))
  | [] => Except.ok []
  | r :: rs => do
    let row ← convert_face_row r
    let rest ← convert_face_rows rs
    Except.ok (row :: rest)

def read_mesh_from_file (f : MeshFile) : Except String PMesh :=
  if f.vertexRows.length < f.numVertices then Except.error "StopIteration" else
  let vrows := (f.vertexRows.take f.numVertices).map (List.drop 1)
  if ¬ (vrows.all fun r => r.length = (vrows.headD []).length) then
    Except.error "ValueError: ragged vertex rows" else
  if f.faceRows.length < f.numFaces then Except.error "StopIteration" else
  match convert_face_rows (f.faceRows.take f.numFaces) with
  | Except.error e => Except.error e
  | Except.ok faces =>
    if f.numVertices = 0 then Except.error "IndexError: tuple index out of range" else
    if faces.isEmpty then Except.error "AssertionError: Faces must have dimensions F x 3" else
    if faces.all fun r => r.length = 3 then Except.ok ⟨vrows, faces⟩
    else Except.error "AssertionError: Faces must have dimensions F x 3"

example : compute_edge_indices [(0, 1, 2), (1, 0, 3)] =
    ({(0, 1), (0, 2), (1, 2), (1, 0), (1, 3), (0, 3)} : Finset (ℕ × ℕ)) := by decide

example :
    read_mesh_from_file ⟨1, 1, [[1, 0, 0, 0]], [[2, 3, 4]]⟩ =
      Except.ok ⟨[[0, 0, 0]], [[1, 2, 3]]⟩ := by rfl

/- ### window.py, painter's-algorithm drawing (computable part) -/

/-- The sort key of `Window._sort_faces_by_render_order_values`
(`lambda x: x[2]` on the zipped (triangle, color, value) tuples). -/
def draw_key {T C K : Type} (x : T × C × K) : K := x.2.2

/-- `Window._sort_faces_by_render_order_values`: Python's `sorted` is a stable
sort, whose output is uniquely determined, so any stable sort embeds it;
`List.insertionSort` is stable. -/
def sort_faces_by_render_order_values {T C K : Type} [LinearOrder K]
    (triangles : List T) (colors : List C) (render_order_values : List K) :
    List (T × C × K) :=
  List.insertionSort (fun a b => draw_key a ≤ draw_key b)
    (triangles.zip (colors.zip render_order_values))

/-- `Window.draw_triangles`: asserts equal lengths, sorts by render-order
value, and draws in that order.  The result is the sequence of
(triangle, color) pairs in the order they are drawn. -/
def draw_triangles {T C K : Type} [LinearOrder K]
    (triangles : List T) (colors : List C) (render_order_values : List K) :
    Except String (List (T × C)) :=
  if triangles.length = colors.length ∧ colors.length = render_order_values.length then
    Except.ok ((sort_faces_by_render_order_values triangles colors render_order_values).map
      fun x => (x.1, x.2.1))
  else Except.error "AssertionError: All input lists should have the same length"

noncomputable section

/- ### mesh.py, geometry over `ℝ`

Vertices are a `Matrix (Fin 3) (Fin n) ℝ` (the source's 3×V `vertices` array,
columns are points); a face row is a triple of vertex (column) indices. -/

abbrev Vec3 := ℝ × ℝ × ℝ

abbrev Face (n : ℕ) := Fin n × Fin n × Fin n

/-- Column `j` of the 3×V vertex array, as a 3D point. -/
def point_of {n : ℕ} (M : Matrix (Fin 3) (Fin n) ℝ) (j : Fin n) : Vec3 :=
  (M 0 j, M 1 j, M 2 j)

/-- `np.cross` of two 3-vectors. -/
def cross (a b : Vec3) : Vec3 :=
  (a.2.1 * b.2.2 - a.2.2 * b.2.1, a.2.2 * b.1 - a.1 * b.2.2, a.1 * b.2.1 - a.2.1 * b.1)

/-- `np.linalg.norm` of a 3-vector. -/
def norm3 (v : Vec3) : ℝ :=
  Real.sqrt (v.1 ^ 2 + v.2.1 ^ 2 + v.2.2 ^ 2)

/-- Componentwise division of a 3-vector by a scalar (`normal /= norm`). -/
def vdiv (v : Vec3) (s : ℝ) : Vec3 :=
  (v.1 / s, v.2.1 / s, v.2.2 / s)

/-- The unnormalized cross product `np.cross(face[1] - face[0], face[2] - face[0])`
computed by `Mesh.get_face_normals` for one face. -/
def face_cross {n : ℕ} (M : Matrix (Fin 3) (Fin n) ℝ) (f : Face n) : Vec3 :=
  cross (point_of M f.2.1 - point_of M f.1) (point_of M f.2.2 - point_of M f.1)

/-- One face's normal as computed by `Mesh.get_face_normals`: the cross product
divided — unconditionally — by its Euclidean norm. -/
def face_normal_of {n : ℕ} (M : Matrix (Fin 3) (Fin n) ℝ) (f : Face n) : Vec3 :=
  vdiv (face_cross M f) (norm3 (face_cross M f))

/-- `Mesh.get_face_normals`. -/
def get_face_normals {n : ℕ} (M : Matrix (Fin 3) (Fin n) ℝ) (faces : List (Face n)) :
    List Vec3 :=
  faces.map (face_normal_of M)

/-- `Mesh.rotate`: left multiplication of the 3×V vertex array by R. -/
def rotate {n : ℕ} (R : Matrix (Fin 3) (Fin 3) ℝ) (M : Matrix (Fin 3) (Fin n) ℝ) :
    Matrix (Fin 3) (Fin n) ℝ :=
  R * M

/-- `np.deg2rad`. -/
def deg2rad (d : ℝ) : ℝ := d * (Real.pi / 180)

/-- The closed-form matrix built by `Mesh.rotate_about_x_and_y`. -/
def rotation_matrix_x_and_y (degrees_about_x degrees_about_y : ℝ) :
    Matrix (Fin 3) (Fin 3) ℝ :=
  let s_y := Real.sin (deg2rad degrees_about_y)
  let c_y := Real.cos (deg2rad degrees_about_y)
  let s_x := Real.sin (deg2rad degrees_about_x)
  let c_x := Real.cos (deg2rad degrees_about_x)
  !![c_y, s_y * s_x, s_y * c_x;
     0, c_x, -s_x;
     -s_y, c_y * s_x, c_y * c_x]

/-- `Mesh.rotate_about_x_and_y`: builds the closed-form matrix and applies it
via a single call to `rotate`. -/
def rotate_about_x_and_y {n : ℕ} (degrees_about_x degrees_about_y : ℝ)
    (M : Matrix (Fin 3) (Fin n) ℝ) : Matrix (Fin 3) (Fin n) ℝ :=
  rotate (rotation_matrix_x_and_y degrees_about_x degrees_about_y) M

/-- The elementary rotation about the x-axis (for comparison with the
closed-form matrix; not in the source, which hand-computed the product). -/
def rotation_matrix_x (t : ℝ) : Matrix (Fin 3) (Fin 3) ℝ :=
  !![1, 0, 0;
     0, Real.cos t, -Real.sin t;
     0, Real.sin t, Real.cos t]

/-- The elementary rotation about the y-axis. -/
def rotation_matrix_y (t : ℝ) : Matrix (Fin 3) (Fin 3) ℝ :=
  !![Real.cos t, 0, Real.sin t;
     0, 1, 0;
     -Real.sin t, 0, Real.cos t]

/-- `Mesh.get_center`: the mean of the vertex columns (`np.mean(vertices, axis=1)`). -/
def get_center {n : ℕ} (M : Matrix (Fin 3) (Fin n) ℝ) : Fin 3 → ℝ :=
  fun i => (∑ j, M i j) / n

/-- `Mesh.center_at_origin`: subtracts the center from every column. -/
def center_at_origin {n : ℕ} (M : Matrix (Fin 3) (Fin n) ℝ) :
    Matrix (Fin 3) (Fin n) ℝ :=
  Matrix.of fun i j => M i j - get_center M i

/-- Euclidean distance of vertex `j` from the mesh center. -/
def dist_to_center {n : ℕ} (M : Matrix (Fin 3) (Fin n) ℝ) (j : Fin n) : ℝ :=
  Real.sqrt (∑ i, (M i j - get_center M i) ^ 2)

/-- `Mesh.project_vertices_onto_window` at one column: keep rows 0 and 1. -/
def projected_point {n : ℕ} (M : Matrix (Fin 3) (Fin n) ℝ) (j : Fin n) : ℝ × ℝ :=
  (M 0 j, M 1 j)

/-- One face's 3×2 polygon (`projected_vertices[:, face].T`). -/
def face_polygon {n : ℕ} (M : Matrix (Fin 3) (Fin n) ℝ) (f : Face n) :
    (ℝ × ℝ) × (ℝ × ℝ) × (ℝ × ℝ) :=
  (projected_point M f.1, projected_point M f.2.1, projected_point M f.2.2)

/-- `Mesh.get_projected_faces`. -/
def get_projected_faces {n : ℕ} (M : Matrix (Fin 3) (Fin n) ℝ) (faces : List (Face n)) :
    List ((ℝ × ℝ) × (ℝ × ℝ) × (ℝ × ℝ)) :=
  faces.map (face_polygon M)

/-- `Mesh._compute_z_centroid_of_triangle` applied to face `f`: the z-coordinate
of the average of the face's three vertices. -/
def z_centroid {n : ℕ} (M : Matrix (Fin 3) (Fin n) ℝ) (f : Face n) : ℝ :=
  (M 2 f.1 + M 2 f.2.1 + M 2 f.2.2) / 3

/-- `Mesh.get_face_z_values`. -/
def get_face_z_values {n : ℕ} (M : Matrix (Fin 3) (Fin n) ℝ) (faces : List (Face n)) :
    List ℝ :=
  faces.map (z_centroid M)

/- ### window.py, shading and painter's-algorithm drawing -/

/-- Dot product of two 3-vectors. -/
def dot3 (a b : Vec3) : ℝ :=
  a.1 * b.1 + a.2.1 * b.2.1 + a.2.2 * b.2.2

/-- The fixed view axis `np.array([[0], [0], [1]])`. -/
def z_axis : Vec3 := (0, 0, 1)

/-- `Window._compute_projection_norm_with_z_axis`: per normal, the absolute
value of its dot product with the z-axis. -/
def compute_projection_norm_with_z_axis (normals : List Vec3) : List ℝ :=
  normals.map fun nv => |dot3 nv z_axis|

/-- Default `blue_min` of `Window._get_face_color_from_projection_norm`. -/
def default_blue_min : ℝ := 95

/-- Default `blue_max` of `Window._get_face_color_from_projection_norm`. -/
def default_blue_max : ℝ := 255

/-- `Window._get_face_color_from_projection_norm`: linear interpolation of the
blue channel, returned as an (r, g, b, a) tuple. -/
def get_face_color_from_projection_norm (blue_min blue_max projection_norm : ℝ) :
    ℝ × ℝ × ℝ × ℝ :=
  ((0 : ℝ), (0 : ℝ), (blue_min + projection_norm * (blue_max - blue_min)) / 255, (1 : ℝ))

/-- `Window._get_face_color_from_projection_norm` with its default arguments. -/
def get_face_color_default (projection_norm : ℝ) : ℝ × ℝ × ℝ × ℝ :=
  get_face_color_from_projection_norm default_blue_min default_blue_max projection_norm

/-- `Window._get_face_colors_from_normals`. -/
def get_face_colors_from_normals (normals : List Vec3) : List (ℝ × ℝ × ℝ × ℝ) :=
  (compute_projection_norm_with_z_axis normals).map get_face_color_default

/-- The three index-aligned lists `Window.plot_mesh` passes to `draw_triangles`
in its `draw_faces` branch: projected faces, colors from normals, z values. -/
def plot_mesh_face_args {n : ℕ} (M : Matrix (Fin 3) (Fin n) ℝ)
    (faces : List (Face n)) :
    List ((ℝ × ℝ) × (ℝ × ℝ) × (ℝ × ℝ)) × List (ℝ × ℝ × ℝ × ℝ) × List ℝ :=
  (get_projected_faces M faces,
   get_face_colors_from_normals (get_face_normals M faces),
   get_face_z_values M faces)

/- ### mesh_renderer.py, the interaction controller -/

/-- Default `degrees_per_full_screen_mouse_move` of `MeshRendererApp`. -/
def default_degrees_per_full_screen_mouse_move : ℝ := 200

/-- The mutable state of `MeshRendererApp` touched by the mouse handlers. -/
structure AppState (n : ℕ) where
  mesh : Matrix (Fin 3) (Fin n) ℝ
  mouse_is_pressed : Bool
  last_mouse_drag_location : Option (ℝ × ℝ)

/-- `MeshRendererApp.rotate_mesh_based_on_mouse_move` followed by the
`center_at_origin` call of `on_motion`, given the recorded last location and
the figure resolution `(res_x, res_y)` in pixels. -/
def rotate_mesh_based_on_mouse_move {n : ℕ} (res_x res_y degrees_per_full_screen : ℝ)
    (mesh : Matrix (Fin 3) (Fin n) ℝ) (last : ℝ × ℝ) (current_mouse_x current_mouse_y : ℝ) :
    Matrix (Fin 3) (Fin n) ℝ :=
  let x_displacement := current_mouse_x - last.1
  let y_displacement := current_mouse_y - last.2
  let x_displacement_normalized := x_displacement / res_x
  let y_displacement_normalized := y_displacement / res_y
  rotate_about_x_and_y (-y_displacement_normalized * degrees_per_full_screen)
    (x_displacement_normalized * degrees_per_full_screen) mesh

/-- `MeshRendererApp.on_motion`.  `Option` on the event coordinates models
matplotlib's possibly-absent pointer coordinates; the `none` result models the
`TypeError` Python would raise if a drag were in progress with no recorded
last location (unreachable from `on_press`). -/
def on_motion {n : ℕ} (res_x res_y degrees_per_full_screen : ℝ) (s : AppState n)
    (event_x event_y : Option ℝ) : Option (AppState n) :=
  if s.mouse_is_pressed = false then some s
  else
    match event_x, event_y with
    | some cx, some cy =>
      match s.last_mouse_drag_location with
      | none => none
      | some last =>
        let m1 := rotate_mesh_based_on_mouse_move res_x res_y degrees_per_full_screen
          s.mesh last cx cy
        let m2 := center_at_origin m1
        some ⟨m2, s.mouse_is_pressed, some (cx, cy)⟩
    | _, _ => some s

end

/-! ## Helper lemmas -/

theorem convert_face_row_ok (r : List Int) (h : ∀ x ∈ r, 1 ≤ x) :
    convert_face_row r = Except.ok (r.map fun x => (x - 1).toNat) := by
  induction r with
  | nil => rfl
  | cons x xs ih =>
    have hx : 1 ≤ x := h x (List.mem_cons_self x xs)
    have hxs : ∀ y ∈ xs, 1 ≤ y := fun y hy => h y (List.mem_cons_of_mem x hy)
    simp only [convert_face_row, vertex_id_to_index, if_pos hx, ih hxs, List.map_cons]
    rfl

theorem convert_face_row_error (r : List Int) (h : ∃ x ∈ r, x < 1) :
    ∃ e, convert_face_row r = Except.error e := by
  induction r with
  | nil => simp at h
  | cons x xs ih =>
    by_cases hx : 1 ≤ x
    · rcases h with ⟨y, hy, hy1⟩
      rcases List.mem_cons.mp hy with rfl | hmem
      · omega
      · rcases ih ⟨y, hmem, hy1⟩ with ⟨e, he⟩
        refine ⟨e, ?_⟩
        simp only [convert_face_row, vertex_id_to_index, if_pos hx, he]
        rfl
      -- first occurrence with a bad id aborts the whole conversion
    · refine ⟨"AssertionError: Vertex id should range from 1 to V", ?_⟩
      simp only [convert_face_row, vertex_id_to_index, if_neg hx]
      rfl

theorem convert_face_rows_ok (rs : List (List Int)) (h : ∀ r ∈ rs, ∀ x ∈ r, 1 ≤ x) :
    convert_face_rows rs = Except.ok (rs.map fun r => r.map fun x => (x - 1).toNat) := by
  induction rs with
  | nil => rfl
  | cons r rs ih =>
    have hr := h r (List.mem_cons_self r rs)
    have hrs : ∀ r' ∈ rs, ∀ x ∈ r', 1 ≤ x := fun r' hr' => h r' (List.mem_cons_of_mem r hr')
    simp only [convert_face_rows, convert_face_row_ok r hr, ih hrs, List.map_cons]
    rfl

theorem convert_face_rows_error (rs : List (List Int)) (h : ∃ r ∈ rs, ∃ x ∈ r, x < 1) :
    ∃ e, convert_face_rows rs = Except.error e := by
  induction rs with
  | nil => simp at h
  | cons r rs ih =>
    rcases h with ⟨r', hr', hx⟩
    rcases List.mem_cons.mp hr' with rfl | hmem
    · rcases convert_face_row_error r' hx with ⟨e, he⟩
      refine ⟨e, ?_⟩
      simp only [convert_face_rows, he]
      rfl
    · by_cases hr1 : ∀ x ∈ r, 1 ≤ x
      · rcases ih ⟨r', hmem, hx⟩ with ⟨e, he⟩
        refine ⟨e, ?_⟩
        simp only [convert_face_rows, convert_face_row_ok r hr1, he]
        rfl
      · push_neg at hr1
        rcases convert_face_row_error r (by simpa using hr1) with ⟨e, he⟩
        refine ⟨e, ?_⟩
        simp only [convert_face_rows, he]
        rfl

/-! ## Claims -/

/-- C1: for an F×3 faces array with valid vertex indices, the edge list
returned by `compute_edge_indices` would be deduplicated by unordered pair.
The code deduplicates by *ordered* tuple only: on the faces
`[[0,1,2],[1,0,3]]` the edge `{0,1}` — shared between the two faces — appears
twice, as `(0,1)` and as `(1,0)`, and the edge count is 6 = 3×F even though
an edge is shared. -/
theorem compute_edge_indices_ordered_duplicate :
    (0, 1) ∈ compute_edge_indices [(0, 1, 2), (1, 0, 3)] ∧
    (1, 0) ∈ compute_edge_indices [(0, 1, 2), (1, 0, 3)] ∧
    (compute_edge_indices [(0, 1, 2), (1, 0, 3)]).card = 3 * 2 := by decide

/-- The mesh file used to refute C2: 1 vertex, 1 face, and a face row whose
ids 2, 3, 4 all exceed `numVertices = 1`. -/
def out_of_range_mesh_file : MeshFile :=
  ⟨1, 1, [[1, 0, 0, 0]], [[2, 3, 4]]⟩

/-- C2, counterexample: a face row with vertex ids greater than `numVertices`
is not rejected — `read_mesh_from_file` returns a mesh whose face indices are
out of range (indices 1, 2, 3 with only one vertex).  Only ids `< 1` are
checked. -/
theorem read_mesh_from_file_accepts_out_of_range_ids :
    out_of_range_mesh_file.numVertices = 1 ∧
    out_of_range_mesh_file.faceRows = [[2, 3, 4]] ∧
    read_mesh_from_file out_of_range_mesh_file = Except.ok ⟨[[0, 0, 0]], [[1, 2, 3]]⟩ :=
  ⟨rfl, rfl, rfl⟩

/-- C2, amended: for a structurally well-formed file (enough rows, 4-column
vertex rows, 3-column face rows, positive counts), `read_mesh_from_file`
fails iff some consumed face id is `< 1`; ids are otherwise converted from
1-based to 0-based with no upper-bound check against `numVertices`. -/
theorem read_mesh_from_file_range_check (f : MeshFile)
    (hV : 0 < f.numVertices)
    (hvlen : f.numVertices ≤ f.vertexRows.length)
    (hvrow : ∀ r ∈ f.vertexRows.take f.numVertices, r.length = 4)
    (hF : 0 < f.numFaces)
    (hflen : f.numFaces ≤ f.faceRows.length)
    (hfrow : ∀ r ∈ f.faceRows.take f.numFaces, r.length = 3) :
    ((∀ r ∈ f.faceRows.take f.numFaces, ∀ x ∈ r, 1 ≤ x) →
      read_mesh_from_file f =
        Except.ok ⟨(f.vertexRows.take f.numVertices).map (List.drop 1),
          (f.faceRows.take f.numFaces).map fun r => r.map fun x => (x - 1).toNat⟩) ∧
    ((∃ r ∈ f.faceRows.take f.numFaces, ∃ x ∈ r, x < 1) →
      ∃ e, read_mesh_from_file f = Except.error e) := by
  have hnl1 : ¬ f.vertexRows.length < f.numVertices := not_lt.mpr hvlen
  have hnl2 : ¬ f.faceRows.length < f.numFaces := not_lt.mpr hflen
  have hhomog :
      ((f.vertexRows.take f.numVertices).map (List.drop 1)).all
        (fun r => r.length =
          (((f.vertexRows.take f.numVertices).map (List.drop 1)).headD []).length) = true := by
    rw [List.all_eq_true]
    intro r hr
    rcases List.mem_map.mp hr with ⟨r0, hr0, rfl⟩
    have hlen3 : (r0.drop 1).length = 3 := by
      rw [List.length_drop, hvrow r0 hr0]
    have hne : (f.vertexRows.take f.numVertices).map (List.drop 1) ≠ [] := by
      simp [List.map_eq_nil_iff, ← List.length_eq_zero, List.length_take]
      omega
    rcases hhead : (f.vertexRows.take f.numVertices).map (List.drop 1) with _ | ⟨a, l⟩
    · exact absurd hhead hne
    · have ha : a ∈ (f.vertexRows.take f.numVertices).map (List.drop 1) := by
        rw [hhead]; exact List.mem_cons_self a l
      rcases List.mem_map.mp ha with ⟨a0, ha0, rfl⟩
      have hlen3' : (a0.drop 1).length = 3 := by rw [List.length_drop, hvrow a0 ha0]
      simp [List.headD_cons, hlen3, hlen3']
      rw [hvrow r0 hr0, hvrow a0 ha0]
  constructor
  · intro hall
    rw [read_mesh_from_file]
    simp only [hnl1, if_false, hhomog, hnl2, convert_face_rows_ok _ hall]
    have hne : ¬ ((f.faceRows.take f.numFaces).map fun r =>
        r.map fun x => (x - 1).toNat).isEmpty = true := by
      simp [List.isEmpty_iff, List.map_eq_nil_iff, ← List.length_eq_zero, List.length_take]
      omega
    have hall3 : ((f.faceRows.take f.numFaces).map fun r =>
        r.map fun x => (x - 1).toNat).all (fun r => r.length = 3) = true := by
      rw [List.all_eq_true]
      intro r hr
      rcases List.mem_map.mp hr with ⟨r0, hr0, rfl⟩
      simp [List.length_map, hfrow r0 hr0]
    have hFne : f.numFaces ≠ 0 := hF.ne'
    have hfne : f.faceRows ≠ [] := by
      intro h0
      rw [h0] at hflen
      simp at hflen
      omega
    simp [hV.ne', hne, hall3, hFne, hfne]
    intro x hx
    rw [← List.map_take] at hx
    rcases List.mem_map.mp hx with ⟨r0, hr0, rfl⟩
    simp [List.length_map, hfrow r0 hr0]
  · intro hbad
    rw [read_mesh_from_file]
    rcases convert_face_rows_error _ hbad with ⟨e, he⟩
    simp only [hnl1, if_false, hhomog, hnl2, he]
    exact ⟨e, by simp⟩

/-- A well-formed single-tetrahedron-vertex file used as the C2 witness. -/
def sample_mesh_file : MeshFile :=
  ⟨1, 1, [[1, 2, 3, 4]], [[1, 1, 1]]⟩

/-- Witness for C2 at `sample_mesh_file` (all hypotheses hold there). -/
theorem read_mesh_from_file_range_check_witness :
    (0 < sample_mesh_file.numVertices ∧
      sample_mesh_file.numVertices ≤ sample_mesh_file.vertexRows.length ∧
      (∀ r ∈ sample_mesh_file.vertexRows.take sample_mesh_file.numVertices, r.length = 4) ∧
      0 < sample_mesh_file.numFaces ∧
      sample_mesh_file.numFaces ≤ sample_mesh_file.faceRows.length ∧
      (∀ r ∈ sample_mesh_file.faceRows.take sample_mesh_file.numFaces, r.length = 3)) ∧
    ((∀ r ∈ sample_mesh_file.faceRows.take sample_mesh_file.numFaces, ∀ x ∈ r, 1 ≤ x) →
      read_mesh_from_file sample_mesh_file =
        Except.ok ⟨(sample_mesh_file.vertexRows.take sample_mesh_file.numVertices).map
            (List.drop 1),
          (sample_mesh_file.faceRows.take sample_mesh_file.numFaces).map fun r =>
            r.map fun x => (x - 1).toNat⟩) ∧
    ((∃ r ∈ sample_mesh_file.faceRows.take sample_mesh_file.numFaces, ∃ x ∈ r, x < 1) →
      ∃ e, read_mesh_from_file sample_mesh_file = Except.error e) :=
  ⟨⟨by decide, by decide, by decide, by decide, by decide, by decide⟩,
    read_mesh_from_file_range_check sample_mesh_file (by decide) (by decide) (by decide)
      (by decide) (by decide) (by decide)⟩

/-- C5: `draw_triangles` draws the (triangle, color) pairs in ascending order
of their render-order values: the drawn sequence is the input triples sorted
ascending by value (a permutation of the zipped input whose value sequence is
sorted), so the face with the lowest value is drawn first and the face with
the highest value last. -/
theorem draw_triangles_sorted_ascending {T C K : Type} [LinearOrder K]
    (triangles : List T) (colors : List C) (values : List K)
    (h1 : triangles.length = colors.length) (h2 : colors.length = values.length) :
    draw_triangles triangles colors values =
      Except.ok ((sort_faces_by_render_order_values triangles colors values).map
        fun x => (x.1, x.2.1)) ∧
    (sort_faces_by_render_order_values triangles colors values).Perm
      (triangles.zip (colors.zip values)) ∧
    ((sort_faces_by_render_order_values triangles colors values).map draw_key).Sorted
      (· ≤ ·) := by
  haveI : IsTotal (T × C × K) fun a b => draw_key a ≤ draw_key b :=
    ⟨fun a b => le_total (draw_key a) (draw_key b)⟩
  haveI : IsTrans (T × C × K) fun a b => draw_key a ≤ draw_key b :=
    ⟨fun _ _ _ hab hbc => le_trans hab hbc⟩
  refine ⟨by simp [draw_triangles, h1, h2], List.perm_insertionSort _ _, ?_⟩
  rw [List.Sorted, List.pairwise_map]
  exact List.sorted_insertionSort _ _

/-- Witness for C5: three faces with render-order values [0, -1, 2] are drawn
in the order of their values -1, 0, 2 — the -1 face first, the 2 face last. -/
theorem draw_triangles_sorted_ascending_witness :
    draw_triangles [10, 20, 30] [7, 8, 9] ([0, -1, 2] : List ℚ) =
      Except.ok [(20, 8), (10, 7), (30, 9)] ∧
    (([10, 20, 30] : List ℕ).length = ([7, 8, 9] : List ℕ).length ∧
      ([7, 8, 9] : List ℕ).length = ([0, -1, 2] : List ℚ).length) ∧
    (draw_triangles [10, 20, 30] [7, 8, 9] ([0, -1, 2] : List ℚ) =
      Except.ok ((sort_faces_by_render_order_values [10, 20, 30] [7, 8, 9]
          ([0, -1, 2] : List ℚ)).map fun x => (x.1, x.2.1)) ∧
      (sort_faces_by_render_order_values [10, 20, 30] [7, 8, 9]
          ([0, -1, 2] : List ℚ)).Perm
        (([10, 20, 30] : List ℕ).zip (([7, 8, 9] : List ℕ).zip ([0, -1, 2] : List ℚ))) ∧
      ((sort_faces_by_render_order_values [10, 20, 30] [7, 8, 9]
          ([0, -1, 2] : List ℚ)).map draw_key).Sorted (· ≤ ·)) :=
  ⟨by rfl, ⟨by decide, by decide⟩,
    draw_triangles_sorted_ascending [10, 20, 30] [7, 8, 9] [0, -1, 2] (by decide) (by decide)⟩

/-- C7: after `center_at_origin` the centroid (`get_center`) is exactly the
origin, and consequently `center_at_origin` is idempotent. -/
theorem center_at_origin_centroid_zero {n : ℕ} (M : Matrix (Fin 3) (Fin n) ℝ)
    (hn : 0 < n) :
    (∀ i, get_center (center_at_origin M) i = 0) ∧
    center_at_origin (center_at_origin M) = center_at_origin M := by
  have hne : (n : ℝ) ≠ 0 := Nat.cast_ne_zero.mpr hn.ne'
  have hzero : ∀ i, get_center (center_at_origin M) i = 0 := by
    intro i
    simp only [get_center, center_at_origin, Matrix.of_apply]
    rw [Finset.sum_sub_distrib, Finset.sum_const, Finset.card_univ, Fintype.card_fin,
      nsmul_eq_mul]
    field_simp
  refine ⟨hzero, ?_⟩
  have h2 : ∀ i, get_center (Matrix.of fun i j => M i j - get_center M i) i = 0 := by
    intro i
    simpa [center_at_origin] using hzero i
  ext i j
  simp [center_at_origin, h2 i]

/-- Witness for C7 at a concrete one-vertex mesh. -/
theorem center_at_origin_centroid_zero_witness :
    0 < 1 ∧
    ((∀ i, get_center (center_at_origin !![(1 : ℝ); 2; 3]) i = 0) ∧
      center_at_origin (center_at_origin !![(1 : ℝ); 2; 3]) =
        center_at_origin !![(1 : ℝ); 2; 3]) :=
  ⟨by decide, center_at_origin_centroid_zero !![(1 : ℝ); 2; 3] (by decide)⟩

/-- C4: `rotate_about_x_and_y` applies, via a single call to `rotate`, exactly
the closed-form matrix `[[cy, sy·sx, sy·cx], [0, cx, -sx], [-sy, cy·sx, cy·cx]]`
(angles converted to radians), and that matrix is the product of the
elementary y-rotation and x-rotation — i.e. the closed-form product of the two
elementary rotations, not two sequential rotations. -/
theorem rotate_about_x_and_y_closed_form {n : ℕ} (degrees_about_x degrees_about_y : ℝ)
    (M : Matrix (Fin 3) (Fin n) ℝ) :
    rotate_about_x_and_y degrees_about_x degrees_about_y M =
      rotate (rotation_matrix_x_and_y degrees_about_x degrees_about_y) M ∧
    rotation_matrix_x_and_y degrees_about_x degrees_about_y =
      rotation_matrix_y (deg2rad degrees_about_y) * rotation_matrix_x (deg2rad degrees_about_x) := by
  refine ⟨rfl, ?_⟩
  ext i j
  fin_cases i <;> fin_cases j <;>
    simp [rotation_matrix_x_and_y, rotation_matrix_x, rotation_matrix_y, Matrix.mul_apply,
      Fin.sum_univ_three, Matrix.vecHead, Matrix.vecTail]

/-- C6: `rotate` with an orthogonal matrix of determinant 1 preserves every
vertex's Euclidean distance to the mesh centroid. -/
theorem rotate_preserves_dist_to_center {n : ℕ} (R : Matrix (Fin 3) (Fin 3) ℝ)
    (M : Matrix (Fin 3) (Fin n) ℝ) (hR : Rᵀ * R = 1) (hdet : R.det = 1) (j : Fin n) :
    dist_to_center (rotate R M) j = dist_to_center M j := by
  set d : Fin 3 → ℝ := fun i => M i j - get_center M i with hd
  have hcenter : ∀ i, get_center (rotate R M) i = (R *ᵥ get_center M) i := by
    intro i
    simp only [get_center, rotate, Matrix.mul_apply, Matrix.mulVec, Matrix.dotProduct]
    rw [Finset.sum_comm, Finset.sum_div]
    congr 1
    ext k
    rw [← Finset.mul_sum, mul_div_assoc]
  have hdiff : ∀ i, (rotate R M) i j - get_center (rotate R M) i = (R *ᵥ d) i := by
    intro i
    rw [hcenter]
    simp only [rotate, Matrix.mul_apply, Matrix.mulVec, Matrix.dotProduct, hd]
    rw [← Finset.sum_sub_distrib]
    congr 1
    ext k
    ring
  have key : ∑ i, ((rotate R M) i j - get_center (rotate R M) i) ^ 2 = ∑ i, d i ^ 2 := by
    calc ∑ i, ((rotate R M) i j - get_center (rotate R M) i) ^ 2
        = ∑ i, ((R *ᵥ d) i) ^ 2 := by
          refine Finset.sum_congr rfl fun i _ => ?_
          rw [hdiff]
      _ = (R *ᵥ d) ⬝ᵥ (R *ᵥ d) := by
          simp [Matrix.dotProduct, pow_two]
      _ = ((Rᵀ * R) *ᵥ d) ⬝ᵥ d := by
          rw [Matrix.dotProduct_mulVec, ← Matrix.mulVec_transpose, Matrix.mulVec_mulVec]
      _ = d ⬝ᵥ d := by rw [hR, Matrix.one_mulVec]
      _ = ∑ i, d i ^ 2 := by simp [Matrix.dotProduct, pow_two]
  unfold dist_to_center
  rw [key]

/-- Witness for C6: the identity rotation on a concrete one-vertex mesh. -/
theorem rotate_preserves_dist_to_center_witness :
    ((1 : Matrix (Fin 3) (Fin 3) ℝ)ᵀ * 1 = 1 ∧ (1 : Matrix (Fin 3) (Fin 3) ℝ).det = 1) ∧
    dist_to_center (rotate 1 !![(1 : ℝ); 2; 3]) 0 = dist_to_center !![(1 : ℝ); 2; 3] 0 :=
  ⟨⟨by simp, by simp⟩,
    rotate_preserves_dist_to_center 1 !![(1 : ℝ); 2; 3] (by simp) (by simp) 0⟩

/-- A mesh with three collinear vertices (0,0,0), (1,0,0), (2,0,0) as columns:
its single face is degenerate. -/
def collinear_mesh : Matrix (Fin 3) (Fin 3) ℝ :=
  !![0, 1, 2;
     0, 0, 0;
     0, 0, 0]

/-- C3, counterexample: for the degenerate (collinear) face, the cross product
is the zero vector, yet `get_face_normals` performs the normalization division
anyway — there is no guard — with divisor `‖cross‖ = 0`; the result is not a
unit vector (in exact arithmetic the componentwise `0/0` is `0`, in numpy it
is `nan`). -/
theorem get_face_normals_degenerate_unguarded :
    face_cross collinear_mesh (0, 1, 2) = 0 ∧
    norm3 (face_cross collinear_mesh (0, 1, 2)) = 0 ∧
    get_face_normals collinear_mesh [(0, 1, 2)] =
      [vdiv (face_cross collinear_mesh (0, 1, 2)) 0] ∧
    norm3 (face_normal_of collinear_mesh (0, 1, 2)) ≠ 1 := by
  have hcross : face_cross collinear_mesh (0, 1, 2) = 0 := by
    simp [face_cross, cross, point_of, collinear_mesh, Prod.ext_iff]
  have hnorm : norm3 (face_cross collinear_mesh (0, 1, 2)) = 0 := by
    rw [hcross]
    simp [norm3]
  refine ⟨hcross, hnorm, ?_, ?_⟩
  · simp [get_face_normals, face_normal_of, hnorm]
  · rw [face_normal_of, hnorm, hcross]
    simp [vdiv, norm3]

/-- C3, amended: `get_face_normals` normalizes unconditionally (no guard for a
zero-length cross product, as the counterexample shows); for every face whose
cross product is nonzero the returned normal has unit length. -/
theorem face_normal_unit_for_nondegenerate {n : ℕ} (M : Matrix (Fin 3) (Fin n) ℝ)
    (f : Face n) (h : face_cross M f ≠ 0) :
    norm3 (face_normal_of M f) = 1 := by
  set u : Vec3 := face_cross M f with hu
  set S : ℝ := u.1 ^ 2 + u.2.1 ^ 2 + u.2.2 ^ 2 with hS
  have hcomp : u.1 ≠ 0 ∨ u.2.1 ≠ 0 ∨ u.2.2 ≠ 0 := by
    by_contra hc
    push_neg at hc
    exact h (Prod.ext_iff.mpr ⟨hc.1, Prod.ext_iff.mpr ⟨hc.2.1, hc.2.2⟩⟩)
  have hSpos : 0 < S := by
    rcases hcomp with h1 | h1 | h1
    · have := pow_pos (abs_pos.mpr h1) 2
      rw [← sq_abs u.1] at *
      nlinarith [sq_nonneg u.2.1, sq_nonneg u.2.2]
    · have := pow_pos (abs_pos.mpr h1) 2
      rw [← sq_abs u.2.1] at *
      nlinarith [sq_nonneg u.1, sq_nonneg u.2.2]
    · have := pow_pos (abs_pos.mpr h1) 2
      rw [← sq_abs u.2.2] at *
      nlinarith [sq_nonneg u.1, sq_nonneg u.2.1]
  have hsq : Real.sqrt S ^ 2 = S := Real.sq_sqrt hSpos.le
  have hsqrtpos : 0 < Real.sqrt S := Real.sqrt_pos.mpr hSpos
  rw [face_normal_of, norm3, ← hu]
  have hdivsum : (vdiv u (norm3 u)).1 ^ 2 + (vdiv u (norm3 u)).2.1 ^ 2 +
      (vdiv u (norm3 u)).2.2 ^ 2 = S / Real.sqrt S ^ 2 := by
    rw [norm3, ← hS]
    simp only [vdiv, hS]
    ring
  rw [hdivsum, hsq, div_self hSpos.ne', Real.sqrt_one]

/-- A mesh with vertices (0,0,0), (1,0,0), (0,1,0): its face is
non-degenerate, with cross product (0,0,1). -/
def nondegenerate_mesh : Matrix (Fin 3) (Fin 3) ℝ :=
  !![0, 1, 0;
     0, 0, 1;
     0, 0, 0]

/-- Witness for C3 at a concrete non-degenerate face. -/
theorem face_normal_unit_for_nondegenerate_witness :
    face_cross nondegenerate_mesh (0, 1, 2) ≠ 0 ∧
    norm3 (face_normal_of nondegenerate_mesh (0, 1, 2)) = 1 := by
  have hcross : face_cross nondegenerate_mesh (0, 1, 2) = ((0 : ℝ), (0 : ℝ), (1 : ℝ)) := by
    simp [face_cross, cross, point_of, nondegenerate_mesh, Prod.ext_iff, Matrix.vecHead,
      Matrix.vecTail]
  have hne : face_cross nondegenerate_mesh (0, 1, 2) ≠ 0 := by
    rw [hcross]
    intro hc
    have := congrArg (fun v : Vec3 => v.2.2) hc
    norm_num at this
  exact ⟨hne, face_normal_unit_for_nondegenerate nondegenerate_mesh (0, 1, 2) hne⟩

/-- C8: the shading pipeline computes the alignment score as the absolute
value of the normal's dot product with the view axis (0,0,1); a unit normal's
score lies in [0,1]; the blue channel is `blue_min/255` at score 0 and
`blue_max/255` at score 1 (defaults 95 and 255), monotonic in between; red,
green and alpha are fixed at 0, 0, 1. -/
theorem face_color_pipeline (nv : Vec3) (h : norm3 nv = 1) :
    compute_projection_norm_with_z_axis [nv] = [|dot3 nv z_axis|] ∧
    0 ≤ |dot3 nv z_axis| ∧ |dot3 nv z_axis| ≤ 1 ∧
    (get_face_color_default 0).2.2.1 = default_blue_min / 255 ∧
    (get_face_color_default 1).2.2.1 = default_blue_max / 255 ∧
    (∀ p q : ℝ, p ≤ q →
      (get_face_color_default p).2.2.1 ≤ (get_face_color_default q).2.2.1) ∧
    (∀ p : ℝ, (get_face_color_default p).1 = 0 ∧ (get_face_color_default p).2.1 = 0 ∧
      (get_face_color_default p).2.2.2 = 1) := by
  have hdot : dot3 nv z_axis = nv.2.2 := by
    simp [dot3, z_axis]
  refine ⟨rfl, abs_nonneg _, ?_, ?_, ?_, ?_, ?_⟩
  · rw [hdot, ← h, norm3]
    rw [show |nv.2.2| = Real.sqrt (nv.2.2 ^ 2) from (Real.sqrt_sq_eq_abs nv.2.2).symm]
    apply Real.sqrt_le_sqrt
    nlinarith [sq_nonneg nv.1, sq_nonneg nv.2.1]
  · simp [get_face_color_default, get_face_color_from_projection_norm]
  · simp [get_face_color_default, get_face_color_from_projection_norm, default_blue_min,
      default_blue_max]
  · intro p q hpq
    simp only [get_face_color_default, get_face_color_from_projection_norm,
      default_blue_min, default_blue_max]
    have hnum : (95 : ℝ) + p * (255 - 95) ≤ 95 + q * (255 - 95) := by nlinarith
    exact div_le_div_of_le_of_nonneg hnum (by norm_num)
  · intro p
    exact ⟨rfl, rfl, rfl⟩

/-- Witness for C8 at the unit normal (0,0,1). -/
theorem face_color_pipeline_witness :
    norm3 ((0 : ℝ), (0 : ℝ), (1 : ℝ)) = 1 ∧
    (compute_projection_norm_with_z_axis [((0 : ℝ), (0 : ℝ), (1 : ℝ))] =
        [|dot3 ((0 : ℝ), (0 : ℝ), (1 : ℝ)) z_axis|] ∧
      0 ≤ |dot3 ((0 : ℝ), (0 : ℝ), (1 : ℝ)) z_axis| ∧
      |dot3 ((0 : ℝ), (0 : ℝ), (1 : ℝ)) z_axis| ≤ 1 ∧
      (get_face_color_default 0).2.2.1 = default_blue_min / 255 ∧
      (get_face_color_default 1).2.2.1 = default_blue_max / 255 ∧
      (∀ p q : ℝ, p ≤ q →
        (get_face_color_default p).2.2.1 ≤ (get_face_color_default q).2.2.1) ∧
      (∀ p : ℝ, (get_face_color_default p).1 = 0 ∧ (get_face_color_default p).2.1 = 0 ∧
        (get_face_color_default p).2.2.2 = 1)) :=
  have h1 : norm3 ((0 : ℝ), (0 : ℝ), (1 : ℝ)) = 1 := by
    simp [norm3]
  ⟨h1, face_color_pipeline ((0 : ℝ), (0 : ℝ), (1 : ℝ)) h1⟩

/-- C9: on a pointer-move while the mouse is pressed with a recorded last
position, `on_motion` rotates about X by `-(Δy/res_y)·degrees_per_full_screen`
and about Y by `(Δx/res_x)·degrees_per_full_screen` via `rotate_about_x_and_y`,
then recenters at the origin, then records the new position; if either pointer
coordinate is missing the state (mesh included) is unchanged. -/
theorem on_motion_rotation {n : ℕ} (res_x res_y deg : ℝ) (s : AppState n)
    (lx ly cx cy : ℝ)
    (hp : s.mouse_is_pressed = true)
    (hl : s.last_mouse_drag_location = some (lx, ly)) :
    on_motion res_x res_y deg s (some cx) (some cy) =
      some ⟨center_at_origin
          (rotate_about_x_and_y (-((cy - ly) / res_y) * deg) (((cx - lx) / res_x) * deg)
            s.mesh),
        s.mouse_is_pressed, some (cx, cy)⟩ ∧
    (∀ ey, on_motion res_x res_y deg s none ey = some s) ∧
    (∀ ex, on_motion res_x res_y deg s ex none = some s) := by
  refine ⟨?_, ?_, ?_⟩
  · simp [on_motion, hp, hl, rotate_mesh_based_on_mouse_move]
  · intro ey
    simp [on_motion, hp]
  · intro ex
    cases ex <;> simp [on_motion, hp]

/-- Witness for C9 at a concrete pressed state with a recorded position. -/
theorem on_motion_rotation_witness :
    ((⟨!![(1 : ℝ); 2; 3], true, some (5, 6)⟩ : AppState 1).mouse_is_pressed = true ∧
      (⟨!![(1 : ℝ); 2; 3], true, some (5, 6)⟩ : AppState 1).last_mouse_drag_location =
        some (5, 6)) ∧
    (on_motion 640 640 default_degrees_per_full_screen_mouse_move
        (⟨!![(1 : ℝ); 2; 3], true, some (5, 6)⟩ : AppState 1) (some 7) (some 8) =
      some ⟨center_at_origin
          (rotate_about_x_and_y (-((8 - 6) / 640) * default_degrees_per_full_screen_mouse_move)
            (((7 - 5) / 640) * default_degrees_per_full_screen_mouse_move)
            (⟨!![(1 : ℝ); 2; 3], true, some (5, 6)⟩ : AppState 1).mesh),
        (⟨!![(1 : ℝ); 2; 3], true, some (5, 6)⟩ : AppState 1).mouse_is_pressed,
        some (7, 8)⟩ ∧
      (∀ ey, on_motion 640 640 default_degrees_per_full_screen_mouse_move
          (⟨!![(1 : ℝ); 2; 3], true, some (5, 6)⟩ : AppState 1) none ey =
        some ⟨!![(1 : ℝ); 2; 3], true, some (5, 6)⟩) ∧
      (∀ ex, on_motion 640 640 default_degrees_per_full_screen_mouse_move
          (⟨!![(1 : ℝ); 2; 3], true, some (5, 6)⟩ : AppState 1) ex none =
        some ⟨!![(1 : ℝ); 2; 3], true, some (5, 6)⟩)) :=
  ⟨⟨rfl, rfl⟩,
    on_motion_rotation 640 640 default_degrees_per_full_screen_mouse_move
      ⟨!![(1 : ℝ); 2; 3], true, some (5, 6)⟩ 5 6 7 8 rfl rfl⟩

/-- C10: the per-face lists `plot_mesh` hands to `draw_triangles` are
index-aligned with the faces array: they all have length `faces.length`, and
for every `i < faces.length` the i-th projected polygon, the i-th color and
the i-th render-order value are computed from the same face row `i` (the
polygon of face i, the shading color of face i's normal, and the z-centroid of
face i). -/
theorem plot_mesh_face_args_aligned {n : ℕ} (M : Matrix (Fin 3) (Fin n) ℝ)
    (faces : List (Face n)) (i : ℕ) (h : i < faces.length) :
    (plot_mesh_face_args M faces).1.length = faces.length ∧
    (plot_mesh_face_args M faces).2.1.length = faces.length ∧
    (plot_mesh_face_args M faces).2.2.length = faces.length ∧
    (plot_mesh_face_args M faces).1.getD i ((0, 0), (0, 0), (0, 0)) =
      face_polygon M (faces.get ⟨i, h⟩) ∧
    (plot_mesh_face_args M faces).2.1.getD i (0, 0, 0, 0) =
      get_face_color_default |dot3 (face_normal_of M (faces.get ⟨i, h⟩)) z_axis| ∧
    (plot_mesh_face_args M faces).2.2.getD i 0 = z_centroid M (faces.get ⟨i, h⟩) := by
  refine ⟨?_, ?_, ?_, ?_, ?_, ?_⟩ <;>
    simp [plot_mesh_face_args, get_projected_faces, get_face_colors_from_normals,
      compute_projection_norm_with_z_axis, get_face_normals, get_face_z_values,
      List.getD_eq_getElem?_getD, List.getElem?_eq_getElem, h, List.map_map]

/-- Witness for C10 at a concrete one-vertex, one-face mesh. -/
theorem plot_mesh_face_args_aligned_witness :
    0 < ([((0 : Fin 1), (0 : Fin 1), (0 : Fin 1))] : List (Face 1)).length ∧
    ((plot_mesh_face_args !![(1 : ℝ); 2; 3] [(0, 0, 0)]).1.length = 1 ∧
      (plot_mesh_face_args !![(1 : ℝ); 2; 3] [(0, 0, 0)]).2.1.length = 1 ∧
      (plot_mesh_face_args !![(1 : ℝ); 2; 3] [(0, 0, 0)]).2.2.length = 1 ∧
      (plot_mesh_face_args !![(1 : ℝ); 2; 3] [(0, 0, 0)]).1.getD 0 ((0, 0), (0, 0), (0, 0)) =
        face_polygon !![(1 : ℝ); 2; 3]
          (([((0 : Fin 1), (0 : Fin 1), (0 : Fin 1))] : List (Face 1)).get ⟨0, by decide⟩) ∧
      (plot_mesh_face_args !![(1 : ℝ); 2; 3] [(0, 0, 0)]).2.1.getD 0 (0, 0, 0, 0) =
        get_face_color_default |dot3 (face_normal_of !![(1 : ℝ); 2; 3]
          (([((0 : Fin 1), (0 : Fin 1), (0 : Fin 1))] : List (Face 1)).get ⟨0, by decide⟩))
          z_axis| ∧
      (plot_mesh_face_args !![(1 : ℝ); 2; 3] [(0, 0, 0)]).2.2.getD 0 0 =
        z_centroid !![(1 : ℝ); 2; 3]
          (([((0 : Fin 1), (0 : Fin 1), (0 : Fin 1))] : List (Face 1)).get ⟨0, by decide⟩)) :=
  ⟨by decide,
    by
      have := plot_mesh_face_args_aligned !![(1 : ℝ); 2; 3]
        ([((0 : Fin 1), (0 : Fin 1), (0 : Fin 1))] : List (Face 1)) 0 (by decide)
      simpa using this⟩
